import Mathlib

/-!
Shallow embedding of the client-side session model of the external-compiler
front-end (`src/app/page.jsx`, first/current revision of the `Home`
component, plus the `FileTabs` rename validation in `src/unnamed/part_001`).

State handlers (`handleCreateFile`, `handleDeleteFile`, `handleRenameFile`,
the language-reconciler effect, `handleRun`, `saveToHistory`, the bootstrap
effect and `handleShare`) are translated as pure functions over an explicit
`Session` state.  External inputs — the millisecond clock `Date.now()`, and
the per-test-case network outcome — are passed as explicit arguments.
-/

namespace ExtCompiler

/-- A file object as held in the `files` state array:
`{ id, name, content, language }` (page.jsx line 33). -/
structure File where
  id : String
  name : String
  content : String
  language : String
deriving Repr, DecidableEq

/-- A test case object: `{ id, input, output, status }` (page.jsx line 39);
`output` is `null` initially, `status` is one of the strings
`pending`, `success`, `error`. -/
structure TestCase where
  id : Nat
  input : String
  output : Option String
  status : String
deriving Repr, DecidableEq

/-- One execution-history entry (page.jsx lines 346-352). -/
structure HistoryEntry where
  id : Nat
  timestamp : String
  language : String
  files : List File
  testCases : List TestCase
deriving Repr, DecidableEq

/-- The mutable session state owned by the `Home` component (the fields the
claims are about: `language`, `files`, `activeFileId`, `testCases`,
`history`). -/
structure Session where
  language : String
  files : List File
  activeFileId : String
  testCases : List TestCase
  history : List HistoryEntry
deriving Repr, DecidableEq

/-- Dot-splitting of a character list, the semantics of JS `split('.')`
with a literal separator: boundary and adjacent dots yield empty segments,
and the result is never empty (the empty string splits to `[""]`). -/
def splitDotChars : List Char → List (List Char)
  | [] => [[]]
  | c :: rest =>
    if c = '.' then [] :: splitDotChars rest
    else
      match splitDotChars rest with
      | h :: t => (c :: h) :: t
      | [] => [[c]]

/-- JS `name.split('.')` as a list of strings. -/
def splitDot (s : String) : List String :=
  (splitDotChars s.data).map String.mk

/-- JS `name.split('.').pop()`: the last dot-separated segment of a name
(the split result is never empty, so `pop` never yields `undefined`). -/
def splitPop (s : String) : String :=
  (splitDot s).getLastD ""

/-- JS `name.split('.')[0]`: the first dot-separated segment of a name. -/
def splitHead (s : String) : String :=
  (splitDot s).headD ""

/-- JS `toLowerCase()` on the ASCII names the handlers compare. -/
def toLowerStr (s : String) : String :=
  String.mk (s.data.map Char.toLower)

/-- `getExtensionFromLanguage` (page.jsx lines 130-133):
`extensionMap[lang] || 'txt'`. -/
def getExtensionFromLanguage (lang : String) : String :=
  match lang with
  | "javascript" => "js"
  | "python" => "py"
  | "cpp" => "cpp"
  | "java" => "java"
  | "c" => "c"
  | _ => "txt"

/-- The `extensionToLanguage` table of `handleRenameFile`
(page.jsx line 215); unlisted extensions map to `undefined` (`none`). -/
def extensionToLanguage (ext : String) : Option String :=
  match ext with
  | "js" => some "javascript"
  | "py" => some "python"
  | "cpp" => some "cpp"
  | "java" => some "java"
  | "c" => some "c"
  | _ => none

/-- Modelled from the spec: `languageTemplates` from `@/utils/templates`
(whose source is not in the repository snapshot).  The spec describes it as
the table of language-specific starter source texts ("Template:
language-specific starter text inserted when a file is created or its
language changes"); the concrete texts are opaque to every claim, only the
table lookup matters. -/
def languageTemplates (lang : String) : Option String :=
  match lang with
  | "javascript" => some "// javascript starter template"
  | "python" => some "# python starter template"
  | "cpp" => some "// cpp starter template"
  | "java" => some "// java starter template"
  | "c" => some "// c starter template"
  | _ => none

/-- Modelled from the spec: `getTemplateForFile` from `@/utils/templates`
(source not in the snapshot): the starter template chosen from the file
name's extension via the fixed extension-to-language table. -/
def getTemplateForFile (fileName : String) : Option String :=
  match extensionToLanguage (toLowerStr (splitPop fileName)) with
  | some lang => languageTemplates lang
  | none => none

/-- `handleCreateFile` (page.jsx lines 190-200): appends a file whose id is
`Date.now().toString()` (the clock value is the explicit `now` argument),
whose content is the template for the name (or `""`), whose language is the
current global language; the new file becomes active. -/
def handleCreateFile (now : Nat) (fileName : String) (st : Session) : Session :=
  let newFile : File :=
    { id := toString now
      name := fileName
      content := (getTemplateForFile fileName).getD ""
      language := st.language }
  { st with files := st.files ++ [newFile], activeFileId := newFile.id }

/-- A sequence of `handleCreateFile` calls, each with its own clock value
and file name. -/
def createAll (st : Session) : List (Nat × String) → Session
  | [] => st
  | (now, name) :: rest => createAll (handleCreateFile now name st) rest

/-- `handleDeleteFile` (page.jsx lines 202-207): refuses when at most one
file remains; otherwise filters out the given id and, when the deleted file
was active, activates `newFiles[0]` (the `getD ""` default is unreachable
in the theorems below, which guarantee the filtered list is nonempty). -/
def handleDeleteFile (id : String) (st : Session) : Session :=
  if st.files.length ≤ 1 then st
  else
    let newFiles := st.files.filter (fun f => !(f.id == id))
    if st.activeFileId = id then
      { st with files := newFiles
                activeFileId := ((newFiles.head?).map File.id).getD "" }
    else
      { st with files := newFiles }

/-- `handleRenameFile` (page.jsx lines 209-229): when the (lower-cased) last
extension changes and the new one is in the table, push the mapped language
into the global selector and reset the file to that language's template;
when it changes to an unknown extension, or does not change, only the name
is updated. -/
def handleRenameFile (st : Session) (id newName : String) : Session :=
  match st.files.find? (fun f => f.id == id) with
  | none => st
  | some file =>
    let oldExtension := toLowerStr (splitPop file.name)
    let newExtension := toLowerStr (splitPop newName)
    if oldExtension ≠ newExtension then
      match extensionToLanguage newExtension with
      | some newLang =>
        { st with
            language := newLang
            files := st.files.map fun f =>
              if f.id == id then
                { f with name := newName
                         content := (languageTemplates newLang).getD ""
                         language := newLang }
              else f }
      | none =>
        { st with files := st.files.map fun f =>
            if f.id == id then { f with name := newName } else f }
    else
      { st with files := st.files.map fun f =>
          if f.id == id then { f with name := newName } else f }

/-- The language-reconciler effect (page.jsx lines 125-149): when the active
file's last extension differs from the new language's canonical extension,
the file is renamed to `split('.')[0]` plus the new extension, its content
is replaced by the language template and its language tag updated. -/
def languageReconcile (st : Session) : Session :=
  if st.activeFileId = "" then st
  else
    match st.files.find? (fun f => f.id == st.activeFileId) with
    | none => st
    | some activeFile =>
      let newExtension := getExtensionFromLanguage st.language
      let currentExtension := splitPop activeFile.name
      if currentExtension ≠ newExtension then
        let newName := splitHead activeFile.name ++ "." ++ newExtension
        let newTemplate := (languageTemplates st.language).getD ""
        { st with files := st.files.map fun f =>
            if f.id == st.activeFileId then
              { f with name := newName, content := newTemplate, language := st.language }
            else f }
      else st

/-- JS truthiness of an optional string field: `undefined`, `null` and `""`
are falsy, every other string is truthy. -/
def truthyStr : Option String → Bool
  | some s => !(s == "")
  | none => false

/-- The 6-bit value of a standard base64 alphabet character
(`undefined`/`none` for anything else). -/
def b64Val (c : Char) : Option Nat :=
  if 65 ≤ c.toNat ∧ c.toNat ≤ 90 then some (c.toNat - 65)
  else if 97 ≤ c.toNat ∧ c.toNat ≤ 122 then some (c.toNat - 97 + 26)
  else if 48 ≤ c.toNat ∧ c.toNat ≤ 57 then some (c.toNat - 48 + 52)
  else if c = '+' then some 62
  else if c = '/' then some 63
  else none

/-- Base64 decoding of a character list in groups of four, honouring `=`
padding; this models the browser built-in `atob` on well-formed input (on
malformed input `atob` throws, which no reachable claim exercises — the
model simply stops decoding there). -/
def atobChars : List Char → List Char
  | a :: b :: c :: d :: rest =>
    match b64Val a, b64Val b with
    | some va, some vb =>
      let byte1 := Char.ofNat (va * 4 + vb / 16)
      if c = '=' then [byte1]
      else
        match b64Val c with
        | some vc =>
          let byte2 := Char.ofNat ((vb % 16) * 16 + vc / 4)
          if d = '=' then [byte1, byte2]
          else
            match b64Val d with
            | some vd => byte1 :: byte2 :: Char.ofNat ((vc % 4) * 64 + vd) :: atobChars rest
            | none => []
        | none => []
    | _, _ => []
  | _ => []

/-- The browser `atob`: base64 text to the decoded byte string. -/
def atob (s : String) : String :=
  String.mk (atobChars s.data)

/-- The `status` object of a judge response: `{ id, description }`
(the description is optional in the model since the code guards on it). -/
structure JudgeStatus where
  id : Nat
  description : Option String
deriving Repr, DecidableEq

/-- The `result` object of a successful judge response, with the three
possibly-absent base64 fields, as destructured on page.jsx line 314. -/
structure JudgeResult where
  stdout : Option String
  stderr : Option String
  compile_output : Option String
  status : Option JudgeStatus
deriving Repr, DecidableEq

/-- The outcome of one per-test-case request inside `handleRun`
(page.jsx lines 304-328): the `fetch`/`json` chain threw (`transportError`,
the inner `catch`), the API answered `success:false` with an optional
`message` (`apiFailure`), or it answered `success:true` with a `result`
(`apiSuccess`). -/
inductive JudgeOutcome where
  | transportError (msg : String)
  | apiFailure (message : Option String)
  | apiSuccess (result : JudgeResult)
deriving Repr, DecidableEq

/-- The report text built on page.jsx lines 315-320: status line, decoded
compilation output, decoded error output, decoded standard output — each
included exactly when its field is truthy — with the fixed fallback
message when all four pieces are empty. -/
def formatOutput (r : JudgeResult) : String :=
  let statusPart :=
    match r.status with
    | some st =>
      if truthyStr st.description then "Status: " ++ st.description.getD "" ++ "\n" else ""
    | none => ""
  let compilePart :=
    if truthyStr r.compile_output then
      "Compilation Output:\n" ++ atob (r.compile_output.getD "") ++ "\n"
    else ""
  let errorPart :=
    if truthyStr r.stderr then "Error:\n" ++ atob (r.stderr.getD "") ++ "\n" else ""
  let outputPart :=
    if truthyStr r.stdout then "Output:\n" ++ atob (r.stdout.getD "") ++ "\n" else ""
  let txt := statusPart ++ compilePart ++ errorPart ++ outputPart
  if txt = "" then "Program executed successfully with no output." else txt

/-- The status classification of page.jsx line 322:
`stderr || (status?.id > 3) ? 'error' : 'success'` (`||` binds tighter
than `?:` in JS, so the whole disjunction is the condition). -/
def classifyStatus (r : JudgeResult) : String :=
  if truthyStr r.stderr || (match r.status with | some st => 3 < st.id | none => false : Bool)
  then "error" else "success"

/-- One test case's update inside the `Promise.all` of `handleRun`
(page.jsx lines 303-328): spread of the old test case with new
`output`/`status`. -/
def runTestCase (tc : TestCase) (outcome : JudgeOutcome) : TestCase :=
  match outcome with
  | .apiSuccess r =>
    { tc with output := some (formatOutput r), status := classifyStatus r }
  | .apiFailure msg =>
    { tc with output := some (if truthyStr msg then msg.getD "" else "Unknown error")
              status := "error" }
  | .transportError m =>
    { tc with output := some ("Error: " ++ m), status := "error" }

/-- Whether an outcome takes one of the two failure paths (transport error
or `success:false`). -/
def outcomeFails : JudgeOutcome → Bool
  | .transportError _ => true
  | .apiFailure _ => true
  | .apiSuccess _ => false

/-- The failure message written into a failed test case's `output`. -/
def failureOutput : JudgeOutcome → Option String
  | .transportError m => some ("Error: " ++ m)
  | .apiFailure msg => some (if truthyStr msg then msg.getD "" else "Unknown error")
  | .apiSuccess _ => none

/-- `testCases.map` under `Promise.all`: the test case at position `j` of
the list is paired with its own response, indexed `i + j`. -/
def runAll (outcomes : Nat → JudgeOutcome) : Nat → List TestCase → List TestCase
  | _, [] => []
  | i, tc :: rest => runTestCase tc (outcomes i) :: runAll outcomes (i + 1) rest

/-- The history append of `saveToHistory` (page.jsx line 355):
`[newHistoryItem, ...history].slice(0, 10)`. -/
def pushHistory (e : HistoryEntry) (history : List HistoryEntry) : List HistoryEntry :=
  (e :: history).take 10

/-- `saveToHistory` (page.jsx lines 345-357): builds the entry from the
clock and timestamp plus deep copies of the current files and the run's
results, then pushes it with the 10-entry cap. -/
def saveToHistory (now : Nat) (timestamp : String) (st : Session)
    (results : List TestCase) : List HistoryEntry :=
  pushHistory
    { id := now, timestamp := timestamp, language := st.language
      files := st.files, testCases := results }
    st.history

/-- The observable result of one `handleRun` invocation: the session after
the run and the final value of the `isLoading` flag. -/
structure RunResult where
  session : Session
  isLoading : Bool
deriving Repr, DecidableEq

/-- `handleRun` (page.jsx lines 289-339).  `setIsLoading(true)` runs first;
when the active file does not resolve the function returns *before* the
`try`/`finally` block, so the loading flag is left `true`.  Otherwise all
test cases run (their outcomes given by `outcomes`), the results replace
`testCases`, one history entry is pushed, and `finally` clears the flag. -/
def handleRun (now : Nat) (ts : String) (outcomes : Nat → JudgeOutcome)
    (st : Session) : RunResult :=
  match st.files.find? (fun f => f.id == st.activeFileId) with
  | none => { session := st, isLoading := true }
  | some _ =>
    let results := runAll outcomes 0 st.testCases
    { session :=
        { st with testCases := results, history := saveToHistory now ts st results }
      isLoading := false }

/-- The object obtained from `JSON.parse` of a decompressed share token, as
read by the bootstrap effect (page.jsx lines 79-83): each of the three
fields it dereferences may be absent (`none` models JS `undefined`). -/
structure SharedData where
  language : Option String
  files : Option (List File)
  testCases : Option (List TestCase)
deriving Repr, DecidableEq

/-- The durable-storage snapshot read in the bootstrap effect (page.jsx
lines 100-113); `none` models an absent (or empty, hence falsy) key. -/
structure Storage where
  language : Option String
  files : Option (List File)
  activeFileId : Option String
  testCases : Option (List TestCase)
deriving Repr, DecidableEq

/-- The session fields touched by the bootstrap effect.  Each is optional
because the unvalidated setters can leave a field holding JS `undefined`
(`none`); the `useState` defaults make every field `some` initially. -/
structure BootSession where
  language : Option String
  files : Option (List File)
  testCases : Option (List TestCase)
  activeFileId : Option String
deriving Repr, DecidableEq

/-- The `useState` initial values of the four bootstrap-relevant fields
(page.jsx lines 30-42). -/
def bootDefault : BootSession :=
  { language := some "javascript"
    files := some [{ id := "1", name := "main.js"
                     content := "// Main entry point\nconsole.log(\x27Hello from main!\x27);"
                     language := "javascript" }]
    testCases := some [{ id := 1, input := "", output := none, status := "pending" }]
    activeFileId := some "1" }

/-- The storage-based restoration branch of the bootstrap effect (page.jsx
lines 100-113): each field is overwritten only when its storage key is
present (and truthy). -/
def restoreFromStorage (stor : Storage) (st : BootSession) : BootSession :=
  let st := match stor.language with
    | some l => { st with language := some l }
    | none => st
  let st := match stor.files with
    | some fs => { st with files := some fs }
    | none => st
  let st := match stor.activeFileId with
    | some a => { st with activeFileId := some a }
    | none => st
  match stor.testCases with
  | some tcs => { st with testCases := some tcs }
  | none => st

/-- Application of a successfully parsed share payload (page.jsx lines
79-92).  The three setters on lines 80-82 run unconditionally (React
enqueues them even if a later statement throws).  Line 83 then evaluates
`data.files[0]?.id || "1"`: when `data.files` is absent this indexing
throws a `TypeError`, which the surrounding `catch` absorbs, and control
falls through to the storage restoration — with the three fields already
overwritten.  When `data.files` is present the active id is set and the
function returns, skipping storage entirely. -/
def applySharedData (d : SharedData) (stor : Storage) (st : BootSession) : BootSession :=
  let st1 : BootSession :=
    { st with language := d.language, files := d.files, testCases := d.testCases }
  match d.files with
  | some fs =>
    let aid := match fs.head? with
      | some f => if f.id = "" then "1" else f.id
      | none => "1"
    { st1 with activeFileId := some aid }
  | none => restoreFromStorage stor st1

/-- The bootstrap effect (page.jsx lines 68-123) restricted to the four
session fields of the claims.  `shared = none` covers every token whose
decompression yields a falsy result or whose `JSON.parse` throws (both
paths fall through to storage restoration with nothing applied);
`shared = some d` is a token that decompressed and parsed into `d`. -/
def bootstrap (shared : Option SharedData) (stor : Storage) (st : BootSession) :
    BootSession :=
  match shared with
  | some d => applySharedData d stor st
  | none => restoreFromStorage stor st

/-- The `{language, files, testCases}` subset serialized by `handleShare`
(page.jsx lines 267-284). -/
structure ShareData where
  language : String
  files : List File
  testCases : List TestCase
deriving Repr, DecidableEq

/-- Modelled from the spec: the textual-serialization plus compression
layer of the share codec (`JSON.stringify`/`JSON.parse` and the LZString
`compressToEncodedURIComponent`/`decompressFromEncodedURIComponent` pair
are external collaborators, specified only by their interface: an
invertible encoding of the `{language, files, testCases}` structure into a
URL-safe token string).  The model realizes that interface with an
executable prefix-free encoding: a length field is a block of `1`s closed
by a `0`. -/
def encNat (n : Nat) : List Char :=
  List.replicate n '1' ++ ['0']

/-- Length-prefixed encoding of a string. -/
def encStr (s : String) : List Char :=
  encNat s.length ++ s.data

/-- Tagged encoding of an optional string (`n` for `null`, `j` then the
string). -/
def encOptStr : Option String → List Char
  | none => ['n']
  | some s => 'j' :: encStr s

/-- Field-by-field encoding of a file object. -/
def encFile (f : File) : List Char :=
  encStr f.id ++ encStr f.name ++ encStr f.content ++ encStr f.language

/-- Field-by-field encoding of a test case. -/
def encTestCase (tc : TestCase) : List Char :=
  encNat tc.id ++ encStr tc.input ++ encOptStr tc.output ++ encStr tc.status

/-- Token text for a share payload: the language, then the length-prefixed
file list, then the length-prefixed test-case list. -/
def encodeShareData (d : ShareData) : String :=
  String.mk (encStr d.language
    ++ encNat d.files.length ++ (d.files.map encFile).flatten
    ++ encNat d.testCases.length ++ (d.testCases.map encTestCase).flatten)

/-- `handleShare` (page.jsx lines 267-284): packs exactly
`{language, files, testCases}` from the session and encodes it as the
token embedded in the share URL. -/
def handleShare (st : Session) : String :=
  encodeShareData { language := st.language, files := st.files, testCases := st.testCases }

/-- Parses a length field: the count of leading `1`s before a `0`. -/
def parseNat : List Char → Option (Nat × List Char)
  | '0' :: rest => some (0, rest)
  | '1' :: rest => (parseNat rest).map (fun p => (p.1 + 1, p.2))
  | _ => none

/-- Parses a length-prefixed string. -/
def parseStr (l : List Char) : Option (String × List Char) :=
  match parseNat l with
  | some (n, r) => if n ≤ r.length then some (String.mk (r.take n), r.drop n) else none
  | none => none

/-- Parses a tagged optional string. -/
def parseOptStr : List Char → Option (Option String × List Char)
  | 'n' :: rest => some (none, rest)
  | 'j' :: rest => (parseStr rest).map (fun p => (some p.1, p.2))
  | _ => none

/-- Parses one file object. -/
def parseFile (l : List Char) : Option (File × List Char) := do
  let (i, r1) ← parseStr l
  let (nm, r2) ← parseStr r1
  let (ct, r3) ← parseStr r2
  let (lg, r4) ← parseStr r3
  some ({ id := i, name := nm, content := ct, language := lg }, r4)

/-- Parses one test case. -/
def parseTestCase (l : List Char) : Option (TestCase × List Char) := do
  let (i, r1) ← parseNat l
  let (inp, r2) ← parseStr r1
  let (out, r3) ← parseOptStr r2
  let (stt, r4) ← parseStr r3
  some ({ id := i, input := inp, output := out, status := stt }, r4)

/-- Runs a parser a fixed number of times, collecting the results. -/
def parseCount (p : List Char → Option (α × List Char)) :
    Nat → List Char → Option (List α × List Char)
  | 0, l => some ([], l)
  | n + 1, l => do
    let (a, r) ← p l
    let (as, r2) ← parseCount p n r
    some (a :: as, r2)

/-- Decoding of a share token back into the `{language, files, testCases}`
structure; fails (all-or-nothing) unless the whole token parses exactly. -/
def decodeShareData (t : String) : Option ShareData := do
  let (lang, r1) ← parseStr t.data
  let (nf, r2) ← parseNat r1
  let (fs, r3) ← parseCount parseFile nf r2
  let (nt, r4) ← parseNat r3
  let (tcs, r5) ← parseCount parseTestCase nt r4
  if r5 = [] then
    some { language := lang, files := fs, testCases := tcs }
  else none

/-! ## Concrete states used by counterexamples, bug evaluations and witnesses -/

/-- The initial session of the component (page.jsx lines 30-43). -/
def initialSession : Session :=
  { language := "javascript"
    files := [{ id := "1", name := "main.js"
                content := "// Main entry point\nconsole.log(\x27Hello from main!\x27);"
                language := "javascript" }]
    activeFileId := "1"
    testCases := [{ id := 1, input := "", output := none, status := "pending" }]
    history := [] }

/-- A session holding a file whose language tag disagrees with its `.js`
extension (reachable: `handleCreateFile` tags every new file with the
current global language, whatever the file's extension). -/
def c3st : Session :=
  { language := "python"
    files := [{ id := "1", name := "main.js", content := "KEEP", language := "python" }]
    activeFileId := "1", testCases := [], history := [] }

/-- A session whose active file has a multi-dot name, with the global
selector just switched to `python`. -/
def c4st : Session :=
  { language := "python"
    files := [{ id := "1", name := "my.file.js", content := "abc", language := "javascript" }]
    activeFileId := "1", testCases := [], history := [] }

/-- Dot-joining of segments, the inverse of `splitDot`. -/
def joinDots : List String → String
  | [] => ""
  | [s] => s
  | s :: rest => s ++ "." ++ joinDots rest

/-- The claim's reading of the rename performed on a language switch:
only the final extension is swapped, the base name — everything before the
last dot — is preserved. -/
def specSwappedName (name ext : String) : String :=
  joinDots ((splitDot name).dropLast) ++ "." ++ ext

/-- A session whose `activeFileId` resolves to no file. -/
def c6missing : Session :=
  { language := "javascript"
    files := [{ id := "1", name := "main.js", content := "", language := "javascript" }]
    activeFileId := "2"
    testCases := [{ id := 1, input := "", output := none, status := "pending" }]
    history := [] }

/-- A decompressing, parsing, but structurally corrupt share payload: the
JSON text `\x7b"files":[]\x7d` (no `language`, no `testCases`). -/
def c8corrupt : SharedData :=
  { language := none, files := some [], testCases := none }

/-- A fully populated durable-storage snapshot. -/
def c8storage : Storage :=
  { language := some "python"
    files := some [{ id := "9", name := "k.py", content := "z", language := "python" }]
    activeFileId := some "9"
    testCases := some [{ id := 2, input := "q", output := none, status := "pending" }] }

/-- The session used by the C3 witness. -/
def c3wst : Session :=
  { language := "javascript"
    files := [{ id := "1", name := "main.js", content := "x", language := "javascript" }]
    activeFileId := "1", testCases := [], history := [] }

/-- The found file of the C3 witness. -/
def c3wf : File :=
  { id := "1", name := "main.js", content := "x", language := "javascript" }

/-- The session of the claim's own example: global language just switched
to `python` while the active file is `main.js`. -/
def c4wst : Session :=
  { language := "python"
    files := [{ id := "1", name := "main.js", content := "old", language := "javascript" }]
    activeFileId := "1", testCases := [], history := [] }

/-- The found active file of the C4 witness. -/
def c4wf : File :=
  { id := "1", name := "main.js", content := "old", language := "javascript" }

/-- The session of the C1 witness: one file, two test cases. -/
def c1st : Session :=
  { language := "javascript"
    files := [{ id := "1", name := "main.js", content := "code", language := "javascript" }]
    activeFileId := "1"
    testCases := [{ id := 1, input := "", output := none, status := "pending" },
                  { id := 2, input := "5", output := none, status := "pending" }]
    history := [] }

/-- The active file of the C1 witness. -/
def c1af : File :=
  { id := "1", name := "main.js", content := "code", language := "javascript" }

/-- Responses for the C1 witness: request 0 hits a transport error, every
other request succeeds. -/
def c1outcomes : Nat → JudgeOutcome := fun j =>
  if j = 0 then JudgeOutcome.transportError "network down"
  else JudgeOutcome.apiSuccess
    { stdout := some "NQo=", stderr := none, compile_output := none
      status := some { id := 3, description := some "Accepted" } }

/-- The two-file session of the C7 witness. -/
def c7st : Session :=
  { language := "javascript"
    files := [{ id := "1", name := "a.js", content := "x", language := "javascript" },
              { id := "2", name := "b.py", content := "y", language := "python" }]
    activeFileId := "1", testCases := [], history := [] }

/-- A history entry with a given id and empty payload, for the C2
witness. -/
def c2entry (k : Nat) : HistoryEntry :=
  { id := k, timestamp := "", language := "", files := [], testCases := [] }

/-- The entry produced by the first run in the C2 witness. -/
def c2first : HistoryEntry := c2entry 0

/-- The entries produced by runs 2 through 11 in the C2 witness. -/
def c2rest : List HistoryEntry :=
  (List.range 10).map (fun k => c2entry (k + 1))

/-- Eleven run entries, oldest first. -/
def c2entries : List HistoryEntry := c2first :: c2rest

/-! ## C2 — bounded, newest-first history -/

/-- Truncating the tail before appending does not change a truncated
append. -/
lemma take_append_take (l m : List HistoryEntry) (n : Nat) :
    (l ++ m.take n).take n = (l ++ m).take n := by
  rw [List.take_append_eq_append_take, List.take_append_eq_append_take, List.take_take]
  have h : min (n - l.length) n = n - l.length := by omega
  rw [h]

/-- Folding `pushHistory` over a run sequence keeps the newest 10 entries,
newest first. -/
lemma foldl_pushHistory (entries : List HistoryEntry) (h0 : List HistoryEntry)
    (hh : h0.length ≤ 10) :
    entries.foldl (fun h e => pushHistory e h) h0 = (entries.reverse ++ h0).take 10 := by
  induction entries generalizing h0 with
  | nil => simp [List.take_of_length_le hh]
  | cons e rest ih =>
    rw [List.foldl_cons]
    rw [ih (pushHistory e h0) (by simp [pushHistory])]
    show (rest.reverse ++ (e :: h0).take 10).take 10 = _
    rw [take_append_take]
    simp [List.append_assoc]

/-- C2: starting from any history of at most 10 entries, after any number
of runs the history still has at most 10 entries and equals the newest 10
entries in reverse-chronological (newest-first) order; in particular after
an 11th run the entry of the 1st run is gone and exactly the 10 most
recent remain.  The final conjunct states the cap for the actual
`handleRun` step. -/
theorem history_capped_fifo (entries : List HistoryEntry) (h0 : List HistoryEntry)
    (hh : h0.length ≤ 10) :
    (entries.foldl (fun h e => pushHistory e h) h0).length ≤ 10 ∧
    entries.foldl (fun h e => pushHistory e h) h0 = (entries.reverse ++ h0).take 10 ∧
    (∀ e rest, entries = e :: rest → rest.length = 10 → e ∉ rest →
      entries.foldl (fun h x => pushHistory x h) h0 = rest.reverse ∧
      e ∉ entries.foldl (fun h x => pushHistory x h) h0) ∧
    (∀ (now : Nat) (ts : String) (oc : Nat → JudgeOutcome) (st : Session),
      st.history.length ≤ 10 →
      ((handleRun now ts oc st).session.history).length ≤ 10) := by
  have hfold := foldl_pushHistory entries h0 hh
  refine ⟨?_, hfold, ?_, ?_⟩
  · rw [hfold]
    simp only [List.length_take]
    omega
  · intro e rest hent hlen hmem
    subst hent
    have hrev : ((e :: rest).reverse ++ h0).take 10 = rest.reverse := by
      rw [List.reverse_cons, List.append_assoc, List.take_append_eq_append_take]
      rw [List.length_reverse, hlen]
      have hrl : rest.reverse.length ≤ 10 := by
        rw [List.length_reverse]; omega
      simp [List.take_of_length_le hrl]
    refine ⟨hfold.trans hrev, ?_⟩
    rw [hfold, hrev]
    simpa using hmem
  · intro now ts oc st hst
    unfold handleRun
    cases hfind : st.files.find? (fun f => f.id == st.activeFileId) with
    | none => exact hst
    | some af =>
      show (saveToHistory now ts st _).length ≤ 10
      unfold saveToHistory pushHistory
      simp only [List.length_take]
      omega

/-- Witness for `history_capped_fifo`: eleven runs from an empty history
leave exactly runs 2-11, newest first, and the first run's entry is
gone. -/
theorem history_capped_fifo_witness :
    ([] : List HistoryEntry).length ≤ 10 ∧
    c2entries = c2first :: c2rest ∧ c2rest.length = 10 ∧ c2first ∉ c2rest ∧
    (c2entries.foldl (fun h x => pushHistory x h) []).length ≤ 10 ∧
    c2entries.foldl (fun h x => pushHistory x h) [] = c2rest.reverse ∧
    c2first ∉ c2entries.foldl (fun h x => pushHistory x h) [] := by
  have h := history_capped_fifo c2entries [] (by decide)
  have h3 := h.2.2.1 c2first c2rest rfl (by decide) (by decide)
  exact ⟨by decide, rfl, by decide, by decide, h.1, h3.1, h3.2⟩

/-! ## C3 — rename to a recognized extension -/

/-- C3 counterexample: renaming `main.js` to `other.js` keeps the new
name's extension `js`, which is in the table (mapped to `javascript`), yet
the renamed file's language tag stays `python` (not the table's mapped
value), its content stays `KEEP` (not the javascript template) and the
global selector stays `python` — because `handleRenameFile` resets
language/content/selector only when the extension *changes*.  So the
claim's universal statement over renames whose new extension is in the
table is false. -/
theorem handleRenameFile_same_ext_counterexample :
    extensionToLanguage (toLowerStr (splitPop "other.js")) = some "javascript" ∧
    handleRenameFile c3st "1" "other.js" =
      { language := "python"
        files := [{ id := "1", name := "other.js", content := "KEEP", language := "python" }]
        activeFileId := "1", testCases := [], history := [] } ∧
    ("python" : String) ≠ "javascript" ∧
    ("KEEP" : String) ≠ (languageTemplates "javascript").getD "" := by
  decide

/-- C3 amended: the template-reset applies exactly to extension-*changing*
renames.  When the new name's (lower-cased) last extension differs from
the old one and is in the table, the renamed file's language becomes the
table's mapped value, its content the template of that language, and the
global selector is pushed to it; a rename that keeps the same extension
(case-insensitively) changes only the name — content byte-for-byte,
language tag and global selector untouched. -/
theorem handleRenameFile_spec (st : Session) (id newName : String) (f : File)
    (hf : st.files.find? (fun g => g.id == id) = some f) :
    (∀ L, toLowerStr (splitPop f.name) ≠ toLowerStr (splitPop newName) →
      extensionToLanguage (toLowerStr (splitPop newName)) = some L →
      (handleRenameFile st id newName).language = L ∧
      (handleRenameFile st id newName).files = st.files.map (fun g =>
        if g.id == id then
          { g with name := newName, content := (languageTemplates L).getD ""
                   language := L }
        else g) ∧
      (handleRenameFile st id newName).activeFileId = st.activeFileId ∧
      (handleRenameFile st id newName).testCases = st.testCases) ∧
    (toLowerStr (splitPop f.name) = toLowerStr (splitPop newName) →
      (handleRenameFile st id newName).language = st.language ∧
      (handleRenameFile st id newName).files = st.files.map (fun g =>
        if g.id == id then { g with name := newName } else g) ∧
      (handleRenameFile st id newName).activeFileId = st.activeFileId ∧
      (handleRenameFile st id newName).testCases = st.testCases) := by
  have hrw : handleRenameFile st id newName =
      (if toLowerStr (splitPop f.name) ≠ toLowerStr (splitPop newName) then
        match extensionToLanguage (toLowerStr (splitPop newName)) with
        | some newLang =>
          { st with
              language := newLang
              files := st.files.map fun g =>
                if g.id == id then
                  { g with name := newName
                           content := (languageTemplates newLang).getD ""
                           language := newLang }
                else g }
        | none =>
          { st with files := st.files.map fun g =>
              if g.id == id then { g with name := newName } else g }
      else
        { st with files := st.files.map fun g =>
            if g.id == id then { g with name := newName } else g }) := by
    unfold handleRenameFile
    rw [hf]
  rw [hrw]
  constructor
  · intro L hne hL
    rw [if_pos hne, hL]
    exact ⟨rfl, rfl, rfl, rfl⟩
  · intro heq
    rw [if_neg (not_not_intro heq)]
    exact ⟨rfl, rfl, rfl, rfl⟩

/-- Witness for `handleRenameFile_spec`: renaming `main.js` to `app.py`
pushes the selector to `python` and resets the file to the python
template. -/
theorem handleRenameFile_spec_witness :
    c3wst.files.find? (fun g => g.id == "1") = some c3wf ∧
    toLowerStr (splitPop c3wf.name) ≠ toLowerStr (splitPop "app.py") ∧
    extensionToLanguage (toLowerStr (splitPop "app.py")) = some "python" ∧
    (handleRenameFile c3wst "1" "app.py").language = "python" ∧
    (handleRenameFile c3wst "1" "app.py").files = c3wst.files.map (fun g =>
      if g.id == "1" then
        { g with name := "app.py", content := (languageTemplates "python").getD ""
                 language := "python" }
      else g) := by
  refine ⟨by decide, by decide, by decide, ?_, ?_⟩
  · exact ((handleRenameFile_spec c3wst "1" "app.py" c3wf (by decide)).1 "python"
      (by decide) (by decide)).1
  · exact ((handleRenameFile_spec c3wst "1" "app.py" c3wf (by decide)).1 "python"
      (by decide) (by decide)).2.1

/-! ## C4 — language switch renames the active file -/

/-- C4 counterexample: with the active file named `my.file.js`, switching
the global language to `python` produces the name `my.py` — the reconciler
keeps only `split('.')[0]` — whereas the claim's "base name preserved,
extension swapped" reading yields `my.file.py`. -/
theorem languageReconcile_multidot_counterexample :
    (languageReconcile c4st).files.map File.name = ["my.py"] ∧
    specSwappedName "my.file.js" (getExtensionFromLanguage "python") = "my.file.py" ∧
    ("my.py" : String) ≠ "my.file.py" := by
  decide

/-- C4 amended: on a global language change with an active file, if the
file's current last extension differs from the new language's canonical
extension, the file's name becomes its *first* dot-segment
(`split('.')[0]`) plus the new extension, its content is overwritten with
the language's starter template and its language tag set; all other
session fields and files are untouched.  If the extension already matches,
no mutation occurs. -/
theorem languageReconcile_spec (st : Session) (f : File)
    (hne : st.activeFileId ≠ "")
    (hf : st.files.find? (fun g => g.id == st.activeFileId) = some f) :
    (splitPop f.name = getExtensionFromLanguage st.language →
      languageReconcile st = st) ∧
    (splitPop f.name ≠ getExtensionFromLanguage st.language →
      (languageReconcile st).files = st.files.map (fun g =>
        if g.id == st.activeFileId then
          { g with
              name := splitHead f.name ++ "." ++ getExtensionFromLanguage st.language
              content := (languageTemplates st.language).getD ""
              language := st.language }
        else g) ∧
      (languageReconcile st).language = st.language ∧
      (languageReconcile st).activeFileId = st.activeFileId ∧
      (languageReconcile st).testCases = st.testCases ∧
      (languageReconcile st).history = st.history) := by
  have hrw : languageReconcile st =
      (if splitPop f.name ≠ getExtensionFromLanguage st.language then
        { st with files := st.files.map fun g =>
            if g.id == st.activeFileId then
              { g with
                  name := splitHead f.name ++ "." ++ getExtensionFromLanguage st.language
                  content := (languageTemplates st.language).getD ""
                  language := st.language }
            else g }
      else st) := by
    unfold languageReconcile
    rw [if_neg hne, hf]
  rw [hrw]
  constructor
  · intro heq
    rw [if_neg (not_not_intro heq)]
  · intro hne2
    rw [if_pos hne2]
    exact ⟨rfl, rfl, rfl, rfl, rfl⟩

/-- Witness for `languageReconcile_spec`, instantiating the claim's
example: switching `javascript` to `python` with active file `main.js`
yields `main.py` holding the python starter template. -/
theorem languageReconcile_spec_witness :
    c4wst.activeFileId ≠ "" ∧
    c4wst.files.find? (fun g => g.id == c4wst.activeFileId) = some c4wf ∧
    splitPop c4wf.name ≠ getExtensionFromLanguage c4wst.language ∧
    (languageReconcile c4wst).files =
      [{ id := "1", name := "main.py"
         content := (languageTemplates "python").getD "", language := "python" }] := by
  refine ⟨by decide, by decide, by decide, ?_⟩
  have h := ((languageReconcile_spec c4wst c4wf (by decide) (by decide)).2 (by decide)).1
  rw [h]
  decide

/-! ## C5 — decoding a successful judge response -/

/-- The two-way classification of page.jsx line 322, characterized: the
result is `error` exactly when `stderr` is truthy or the status id is
above the accepted threshold 3. -/
lemma classifyStatus_error_iff (r : JudgeResult) :
    classifyStatus r = "error" ↔
      truthyStr r.stderr = true ∨ ∃ s, r.status = some s ∧ 3 < s.id := by
  unfold classifyStatus
  cases hst : r.status with
  | none =>
    by_cases he : truthyStr r.stderr = true <;> simp [he]
  | some s =>
    by_cases he : truthyStr r.stderr = true <;>
      by_cases hid : 3 < s.id <;> simp [he, hid]

/-- C5: a successful response updates the test case's output with the
report built by `formatOutput` (status line, compilation output, error
output, standard output, in that fixed order, with the fixed fallback);
the status is a two-valued classification that is `error` exactly when the
`stderr` field is truthy (present and non-empty) or the remote status id
exceeds the accepted threshold 3; and the concrete example of the claim —
`\x7bstatus:\x7bid:3,description:"Accepted"\x7d, stdout: base64("5\n")\x7d` —
decodes to `"Status: Accepted\nOutput:\n5\n\n"` with status `success`. -/
theorem runTestCase_success_spec (tc : TestCase) (r : JudgeResult) :
    (runTestCase tc (JudgeOutcome.apiSuccess r)).output = some (formatOutput r) ∧
    ((runTestCase tc (JudgeOutcome.apiSuccess r)).status = "error" ∨
      (runTestCase tc (JudgeOutcome.apiSuccess r)).status = "success") ∧
    ((runTestCase tc (JudgeOutcome.apiSuccess r)).status = "error" ↔
      truthyStr r.stderr = true ∨ ∃ s, r.status = some s ∧ 3 < s.id) ∧
    formatOutput { stdout := none, stderr := none, compile_output := none, status := none }
      = "Program executed successfully with no output." ∧
    atob "NQo=" = "5\n" ∧
    runTestCase { id := 1, input := "", output := none, status := "pending" }
        (JudgeOutcome.apiSuccess
          { stdout := some "NQo=", stderr := none, compile_output := none
            status := some { id := 3, description := some "Accepted" } })
      = { id := 1, input := "", output := some "Status: Accepted\nOutput:\n5\n\n"
          status := "success" } := by
  have hstat : (runTestCase tc (JudgeOutcome.apiSuccess r)).status = classifyStatus r := rfl
  refine ⟨rfl, ?_, ?_, by decide, by decide, by decide⟩
  · rw [hstat]
    unfold classifyStatus
    split
    · exact Or.inl rfl
    · exact Or.inr rfl
  · rw [hstat]
    exact classifyStatus_error_iff r

/-! ## C6 — the loading flag after a run that cannot start -/

/-- C6 evaluation at the failing input: when `activeFileId` resolves to no
file, `handleRun` returns before its `try`/`finally` block and the loading
flag is left `true`; the claim (and the spec) require it to be `false`.
For contrast, the same invocation with a resolvable active file releases
the flag. -/
theorem handleRun_loading_flag_eval :
    (handleRun 0 "" (fun _ => JudgeOutcome.transportError "net down") c6missing).isLoading
      = true ∧
    (handleRun 0 "" (fun _ => JudgeOutcome.transportError "net down")
        { c6missing with activeFileId := "1" }).isLoading = false := by
  decide

/-! ## C8 — malformed share tokens -/

/-- C8 evaluation at the failing input: the corrupt-but-parseable payload
`\x7b"files":[]\x7d` is committed by the bootstrap — `language` and
`testCases` are clobbered to `undefined`, `files` becomes the token's `[]`,
`activeFileId` becomes `"1"` — and durable storage is never consulted,
contradicting the claim that no part of the session is replaced and that
the session is restored from storage.  (The fourth conjunct shows the
contrast: a token whose decompression or parse fails does fall back to a
full storage restoration.) -/
theorem bootstrap_corrupt_payload_eval :
    bootstrap (some c8corrupt) c8storage bootDefault =
      { language := none, files := some [], testCases := none, activeFileId := some "1" } ∧
    restoreFromStorage c8storage bootDefault =
      { language := some "python"
        files := some [{ id := "9", name := "k.py", content := "z", language := "python" }]
        testCases := some [{ id := 2, input := "q", output := none, status := "pending" }]
        activeFileId := some "9" } ∧
    bootstrap (some c8corrupt) c8storage bootDefault ≠
      restoreFromStorage c8storage bootDefault ∧
    bootstrap none c8storage bootDefault = restoreFromStorage c8storage bootDefault := by
  decide

/-! ## C1 — one failing test case does not affect the others -/

/-- The joined result list has one entry per test case. -/
lemma runAll_length (outcomes : Nat → JudgeOutcome) (i : Nat) (tcs : List TestCase) :
    (runAll outcomes i tcs).length = tcs.length := by
  induction tcs generalizing i with
  | nil => rfl
  | cons tc rest ih => simp [runAll, ih]

/-- Position `j` of the result is exactly test case `j` updated with its
own response. -/
lemma runAll_getElem (outcomes : Nat → JudgeOutcome) (tcs : List TestCase)
    (i j : Nat) (hj : j < tcs.length)
    (hj2 : j < (runAll outcomes i tcs).length) :
    (runAll outcomes i tcs)[j] = runTestCase tcs[j] (outcomes (i + j)) := by
  induction tcs generalizing i j with
  | nil => cases hj
  | cons tc rest ih =>
    cases j with
    | zero => rfl
    | succ k =>
      have hk : k < rest.length := by simpa using hj
      have hk2 : k < (runAll outcomes (i + 1) rest).length := by
        rw [runAll_length]; exact hk
      show (runAll outcomes (i + 1) rest)[k] = _
      rw [ih (i + 1) k hk hk2]
      have harg : i + 1 + k = i + (k + 1) := by omega
      rw [harg]
      rfl

/-- Updating with any response keeps the test case's id. -/
lemma runTestCase_id (tc : TestCase) (o : JudgeOutcome) :
    (runTestCase tc o).id = tc.id := by
  cases o <;> rfl

/-- Updating with any response keeps the test case's input. -/
lemma runTestCase_input (tc : TestCase) (o : JudgeOutcome) :
    (runTestCase tc o).input = tc.input := by
  cases o <;> rfl

/-- A failing outcome marks the test case `error` and stores the failure
message. -/
lemma runTestCase_fail (tc : TestCase) (o : JudgeOutcome)
    (h : outcomeFails o = true) :
    (runTestCase tc o).status = "error" ∧ (runTestCase tc o).output = failureOutput o := by
  cases o with
  | transportError m => exact ⟨rfl, rfl⟩
  | apiFailure msg => exact ⟨rfl, rfl⟩
  | apiSuccess r => exact absurd h (by simp [outcomeFails])

/-- C1: in a run where request `i` fails and all others succeed, the
committed `testCases` list keeps its length and order (ids and inputs at
every position unchanged), entry `i` is `error` carrying the failure
message, and every other entry carries its own decoded result. -/
theorem handleRun_single_failure_isolated
    (st : Session) (now : Nat) (ts : String) (outcomes : Nat → JudgeOutcome)
    (i : Nat) (af : File)
    (hactive : st.files.find? (fun f => f.id == st.activeFileId) = some af)
    (hfail : outcomeFails (outcomes i) = true)
    (hok : ∀ j, j < st.testCases.length → j ≠ i → outcomeFails (outcomes j) = false) :
    (handleRun now ts outcomes st).session.testCases.length = st.testCases.length ∧
    (∀ j (hj : j < (handleRun now ts outcomes st).session.testCases.length)
       (hj2 : j < st.testCases.length),
      ((handleRun now ts outcomes st).session.testCases[j]).id = (st.testCases[j]).id ∧
      ((handleRun now ts outcomes st).session.testCases[j]).input
        = (st.testCases[j]).input) ∧
    (∀ (hi : i < (handleRun now ts outcomes st).session.testCases.length)
       (hi2 : i < st.testCases.length),
      ((handleRun now ts outcomes st).session.testCases[i]).status = "error" ∧
      ((handleRun now ts outcomes st).session.testCases[i]).output
        = failureOutput (outcomes i)) ∧
    (∀ j (hj : j < (handleRun now ts outcomes st).session.testCases.length)
       (hj2 : j < st.testCases.length), j ≠ i →
      ∃ r, outcomes j = JudgeOutcome.apiSuccess r ∧
        ((handleRun now ts outcomes st).session.testCases[j]).status = classifyStatus r ∧
        ((handleRun now ts outcomes st).session.testCases[j]).output
          = some (formatOutput r)) := by
  have hrun : (handleRun now ts outcomes st).session.testCases
      = runAll outcomes 0 st.testCases := by
    unfold handleRun
    rw [hactive]
  refine ⟨?_, ?_, ?_, ?_⟩
  · rw [hrun, runAll_length]
  · intro j hj hj2
    simp only [hrun] at hj ⊢
    rw [runAll_getElem outcomes st.testCases 0 j hj2 hj, Nat.zero_add]
    exact ⟨runTestCase_id _ _, runTestCase_input _ _⟩
  · intro hi hi2
    simp only [hrun] at hi ⊢
    rw [runAll_getElem outcomes st.testCases 0 i hi2 hi, Nat.zero_add]
    exact runTestCase_fail _ _ hfail
  · intro j hj hj2 hji
    simp only [hrun] at hj ⊢
    rw [runAll_getElem outcomes st.testCases 0 j hj2 hj, Nat.zero_add]
    have hokj := hok j hj2 hji
    cases ho : outcomes j with
    | transportError m =>
      rw [ho] at hokj
      exact absurd hokj (by simp [outcomeFails])
    | apiFailure msg =>
      rw [ho] at hokj
      exact absurd hokj (by simp [outcomeFails])
    | apiSuccess r =>
      exact ⟨r, rfl, rfl, rfl⟩

/-- Witness for `handleRun_single_failure_isolated` at the concrete
two-test-case session where request 0 fails. -/
theorem handleRun_single_failure_isolated_witness :
    c1st.files.find? (fun f => f.id == c1st.activeFileId) = some c1af ∧
    outcomeFails (c1outcomes 0) = true ∧
    (∀ j, j < c1st.testCases.length → j ≠ 0 → outcomeFails (c1outcomes j) = false) ∧
    (handleRun 7 "t" c1outcomes c1st).session.testCases.length = c1st.testCases.length ∧
    ((handleRun 7 "t" c1outcomes c1st).session.testCases.get ⟨0, by decide⟩).status
      = "error" ∧
    ((handleRun 7 "t" c1outcomes c1st).session.testCases.get ⟨0, by decide⟩).output
      = failureOutput (c1outcomes 0) := by
  have h := handleRun_single_failure_isolated c1st 7 "t" c1outcomes 0 c1af
    (by decide) (by decide) (by decide)
  have herr := h.2.2.1 (by decide) (by decide)
  exact ⟨by decide, by decide, by decide, h.1, herr.1, herr.2⟩

/-! ## C7 — deleting a file -/

/-- With at least two files and distinct ids, deleting one id cannot empty
the list. -/
lemma filter_ne_nil_of_two (l : List File) (id : String)
    (h2 : 2 ≤ l.length) (hnd : (l.map File.id).Nodup) :
    l.filter (fun f => !(f.id == id)) ≠ [] := by
  intro hnil
  rw [List.filter_eq_nil_iff] at hnil
  match l, h2 with
  | a :: b :: t, _ =>
    have ha : a.id = id := by simpa using hnil a (by simp)
    have hb : b.id = id := by simpa using hnil b (by simp)
    simp only [List.map_cons, List.nodup_cons, List.mem_cons] at hnd
    exact hnd.1 (Or.inl (by rw [ha, hb]))

/-- C7: `handleDeleteFile` is a no-op when exactly one file remains (the
whole session, in particular `files` and `activeFileId`, is returned
unchanged); with at least two files (and the unique-id invariant) it
removes exactly the file carrying the given id, keeps every other file in
sequence order, leaves the active id alone when a non-active file was
deleted, and otherwise activates the first remaining file. -/
theorem handleDeleteFile_spec (st : Session) (id : String) :
    (st.files.length = 1 → handleDeleteFile id st = st) ∧
    (2 ≤ st.files.length → (st.files.map File.id).Nodup →
      (handleDeleteFile id st).files = st.files.filter (fun f => !(f.id == id)) ∧
      (∀ f, f ∈ (handleDeleteFile id st).files → f.id ≠ id) ∧
      (∀ f, f ∈ st.files → f.id ≠ id → f ∈ (handleDeleteFile id st).files) ∧
      (st.activeFileId ≠ id → (handleDeleteFile id st).activeFileId = st.activeFileId) ∧
      (st.activeFileId = id →
        ∃ g rest, st.files.filter (fun f => !(f.id == id)) = g :: rest ∧
          (handleDeleteFile id st).activeFileId = g.id)) := by
  constructor
  · intro h1
    unfold handleDeleteFile
    rw [if_pos (by omega)]
  · intro h2 hnd
    have hif : handleDeleteFile id st =
        (if st.activeFileId = id then
          { st with files := st.files.filter (fun f => !(f.id == id))
                    activeFileId :=
                      (((st.files.filter (fun f => !(f.id == id))).head?).map File.id).getD "" }
        else
          { st with files := st.files.filter (fun f => !(f.id == id)) }) := by
      unfold handleDeleteFile
      rw [if_neg (by omega)]
    have hfiles : (handleDeleteFile id st).files =
        st.files.filter (fun f => !(f.id == id)) := by
      rw [hif]
      split <;> rfl
    refine ⟨hfiles, ?_, ?_, ?_, ?_⟩
    · intro f hm
      rw [hfiles] at hm
      have := (List.mem_filter.mp hm).2
      simpa using this
    · intro f hm hne
      rw [hfiles]
      exact List.mem_filter.mpr ⟨hm, by simpa using hne⟩
    · intro hne
      rw [hif, if_neg hne]
    · intro heq
      obtain ⟨g, rest, hgr⟩ :=
        List.exists_cons_of_ne_nil (filter_ne_nil_of_two st.files id h2 hnd)
      refine ⟨g, rest, hgr, ?_⟩
      rw [hif, if_pos heq]
      show ((((st.files.filter (fun f => !(f.id == id))).head?).map File.id).getD "") = g.id
      rw [hgr]
      rfl

/-- Witness for `handleDeleteFile_spec`: deleting the active file `"1"`
out of two leaves exactly the other file, which becomes active; and a
one-file session ignores the deletion. -/
theorem handleDeleteFile_spec_witness :
    2 ≤ c7st.files.length ∧ (c7st.files.map File.id).Nodup ∧
    (handleDeleteFile "1" c7st).files = c7st.files.filter (fun f => !(f.id == "1")) ∧
    (∃ g rest, c7st.files.filter (fun f => !(f.id == "1")) = g :: rest ∧
      (handleDeleteFile "1" c7st).activeFileId = g.id) ∧
    initialSession.files.length = 1 ∧
    handleDeleteFile "1" initialSession = initialSession := by
  refine ⟨by decide, by decide, ?_, ?_, by decide, ?_⟩
  · exact ((handleDeleteFile_spec c7st "1").2 (by decide) (by decide)).1
  · exact ((handleDeleteFile_spec c7st "1").2 (by decide) (by decide)).2.2.2.2 rfl
  · exact (handleDeleteFile_spec initialSession "1").1 (by decide)

/-! ## C9 — share-codec round trip -/

/-- Length fields parse back. -/
lemma parseNat_encNat (n : Nat) (rest : List Char) :
    parseNat (encNat n ++ rest) = some (n, rest) := by
  induction n with
  | zero => rfl
  | succ k ih =>
    have h : encNat (k + 1) ++ rest = '1' :: (encNat k ++ rest) := by
      simp [encNat, List.replicate_succ]
    rw [h]
    show (parseNat (encNat k ++ rest)).map (fun p => (p.1 + 1, p.2)) = some (k + 1, rest)
    rw [ih]
    rfl

/-- Length-prefixed strings parse back. -/
lemma parseStr_encStr (s : String) (rest : List Char) :
    parseStr (encStr s ++ rest) = some (s, rest) := by
  have h : encStr s ++ rest = encNat s.length ++ (s.data ++ rest) := by
    simp [encStr]
  rw [h]
  simp only [parseStr, parseNat_encNat]
  have hl : s.length = s.data.length := rfl
  rw [if_pos (by rw [hl, List.length_append]; omega)]
  have ht : (s.data ++ rest).take s.length = s.data := by
    rw [hl]; exact List.take_left s.data rest
  have hd : (s.data ++ rest).drop s.length = rest := by
    rw [hl]; exact List.drop_left s.data rest
  rw [ht, hd]

/-- Tagged optional strings parse back. -/
lemma parseOptStr_encOptStr (o : Option String) (rest : List Char) :
    parseOptStr (encOptStr o ++ rest) = some (o, rest) := by
  cases o with
  | none => rfl
  | some s =>
    show (parseStr (encStr s ++ rest)).map (fun p => (some p.1, p.2)) = some (some s, rest)
    rw [parseStr_encStr]
    rfl

/-- Encoded file objects parse back. -/
lemma parseFile_encFile (f : File) (rest : List Char) :
    parseFile (encFile f ++ rest) = some (f, rest) := by
  obtain ⟨i, nm, ct, lg⟩ := f
  simp [parseFile, encFile, List.append_assoc, parseStr_encStr]

/-- Encoded test cases parse back. -/
lemma parseTestCase_encTestCase (tc : TestCase) (rest : List Char) :
    parseTestCase (encTestCase tc ++ rest) = some (tc, rest) := by
  obtain ⟨i, inp, out, stt⟩ := tc
  simp [parseTestCase, encTestCase, List.append_assoc, parseNat_encNat,
    parseStr_encStr, parseOptStr_encOptStr]

/-- A counted run of a parser recovers the encoded list whenever the item
codec round-trips. -/
lemma parseCount_enc {α : Type} (p : List Char → Option (α × List Char))
    (enc : α → List Char)
    (hp : ∀ a rest, p (enc a ++ rest) = some (a, rest)) :
    ∀ (l : List α) (rest : List Char),
      parseCount p l.length ((l.map enc).flatten ++ rest) = some (l, rest) := by
  intro l
  induction l with
  | nil => intro rest; rfl
  | cons a t ih =>
    intro rest
    have h : ((a :: t).map enc).flatten ++ rest = enc a ++ ((t.map enc).flatten ++ rest) := by
      simp
    rw [List.length_cons, h]
    simp [parseCount, hp, ih]

/-- C9: decoding the token produced by `handleShare` reproduces the
session's `{language, files, testCases}` structure exactly — the
round-trip law of the share codec. -/
theorem share_roundtrip (st : Session) :
    decodeShareData (handleShare st) =
      some { language := st.language, files := st.files, testCases := st.testCases } := by
  show decodeShareData (encodeShareData
    { language := st.language, files := st.files, testCases := st.testCases }) = _
  have hff := parseCount_enc parseFile encFile parseFile_encFile
  have htt := parseCount_enc parseTestCase encTestCase parseTestCase_encTestCase
  have hd : (encodeShareData
      { language := st.language, files := st.files, testCases := st.testCases }).data
      = encStr st.language ++ (encNat st.files.length ++ ((st.files.map encFile).flatten
        ++ (encNat st.testCases.length ++ (st.testCases.map encTestCase).flatten))) := by
    simp [encodeShareData, List.append_assoc]
  simp only [decodeShareData, hd, parseStr_encStr, parseNat_encNat, Option.bind_some]
  have hff2 := hff st.files (encNat st.testCases.length ++ (st.testCases.map encTestCase).flatten)
  have htt2 : parseCount parseTestCase st.testCases.length
      ((st.testCases.map encTestCase).flatten) = some (st.testCases, []) := by
    have := htt st.testCases []
    simpa using this
  simp [hff2, parseNat_encNat, htt2]

/-! ## C10 — uniqueness of file ids -/

/-- C10 counterexample: two `handleCreateFile` calls observing the same
millisecond clock value (`Date.now()` is not strictly monotonic across
rapid calls) produce two files with the same id `"1000"`, so ids are not
unique after every sequence of creations. -/
theorem createFile_clock_collision_counterexample :
    (createAll initialSession [(1000, "a.js"), (1000, "b.js")]).files.map File.id
      = ["1", "1000", "1000"] ∧
    ¬ ((createAll initialSession [(1000, "a.js"), (1000, "b.js")]).files.map File.id).Nodup := by
  decide

/-- One creation appends exactly one id, the stringified clock value. -/
lemma handleCreateFile_ids (now : Nat) (name : String) (st : Session) :
    (handleCreateFile now name st).files.map File.id
      = st.files.map File.id ++ [toString now] := by
  simp [handleCreateFile]

/-- Distinct fresh clock values keep the id list duplicate-free through
any sequence of creations. -/
lemma createAll_nodup (ops : List (Nat × String)) (st : Session)
    (h0 : (st.files.map File.id).Nodup)
    (hdist : (ops.map (fun p => toString p.1)).Nodup)
    (hfresh : ∀ p ∈ ops, toString p.1 ∉ st.files.map File.id) :
    ((createAll st ops).files.map File.id).Nodup := by
  induction ops generalizing st with
  | nil => exact h0
  | cons op rest ih =>
    obtain ⟨now, name⟩ := op
    simp only [List.map_cons, List.nodup_cons] at hdist
    show ((createAll (handleCreateFile now name st) rest).files.map File.id).Nodup
    apply ih
    · rw [handleCreateFile_ids]
      rw [List.nodup_append]
      refine ⟨h0, List.nodup_singleton _, ?_⟩
      intro x hx hx2
      simp only [List.mem_singleton] at hx2
      subst hx2
      exact hfresh (now, name) (by simp) hx
    · exact hdist.2
    · intro p hp
      rw [handleCreateFile_ids]
      simp only [List.mem_append, List.mem_singleton]
      rintro (h | h)
      · exact hfresh p (by simp [hp]) h
      · exact hdist.1 (List.mem_map.mpr ⟨p, hp, h⟩)

/-- C10 amended: `handleCreateFile` appends a file whose id is the
stringified clock value, which becomes the active file; and after every
sequence of creations whose observed clock values are pairwise distinct
and distinct from the existing ids (true whenever no two creations share a
millisecond), all file ids remain pairwise distinct. -/
theorem createFile_unique_ids (st : Session) (ops : List (Nat × String))
    (h0 : (st.files.map File.id).Nodup)
    (hdist : (ops.map (fun p => toString p.1)).Nodup)
    (hfresh : ∀ p ∈ ops, toString p.1 ∉ st.files.map File.id) :
    ((createAll st ops).files.map File.id).Nodup ∧
    (∀ now name, (handleCreateFile now name st).activeFileId = toString now ∧
      (handleCreateFile now name st).files = st.files ++
        [{ id := toString now, name := name
           content := (getTemplateForFile name).getD "", language := st.language }]) := by
  refine ⟨createAll_nodup ops st h0 hdist hfresh, ?_⟩
  intro now name
  exact ⟨rfl, rfl⟩

/-- Witness for `createFile_unique_ids`: two creations in distinct
milliseconds starting from the initial session keep ids unique, and the
first creation activates the new file. -/
theorem createFile_unique_ids_witness :
    (initialSession.files.map File.id).Nodup ∧
    (([(100, "a.js"), (200, "b.py")].map
      (fun p : Nat × String => toString p.1)).Nodup) ∧
    (∀ p ∈ [((100 : Nat), "a.js"), (200, "b.py")],
      toString p.1 ∉ initialSession.files.map File.id) ∧
    ((createAll initialSession [(100, "a.js"), (200, "b.py")]).files.map File.id).Nodup ∧
    (handleCreateFile 100 "a.js" initialSession).activeFileId = "100" := by
  refine ⟨by decide, by decide, by decide, ?_, ?_⟩
  · exact (createFile_unique_ids initialSession [(100, "a.js"), (200, "b.py")]
      (by decide) (by decide) (by decide)).1
  · have h := ((createFile_unique_ids initialSession [(100, "a.js"), (200, "b.py")]
      (by decide) (by decide) (by decide)).2 100 "a.js").1
    rw [h]
    decide

end ExtCompiler
